import Mathlib

/-!
Verification development for the HNSW vector index of realm-core-hnsw.

Shallow embedding of src/realm/hnsw_config.hpp, src/realm/index_hnsw.hpp and
the implementation file (src/unnamed/part_004, class realm::HNSWIndex).

Modelling conventions, fixed once here:
* IEEE doubles are modelled as exact rationals.  std::sqrt has no exact
  counterpart on the rationals, so every function that can reach the
  Euclidean or Cosine kernel takes a parameter sq : Rat -> Rat standing for
  the sqrt routine; all theorems below are universally quantified over it.
* ObjKey is its signed 64-bit payload, modelled as Int.  The null key
  ObjKey() is written 0, matching the persisted-format convention of the
  repository (metadata slot 1 holds 0 when the graph is empty) and the
  truthiness tests on m_entry_point.
* std::unordered_map from key to Node is an association list with unique
  keys; iteration order of the map is the list order (the source never
  relies on a particular order).
* The C++ priority queues hold SearchCandidate values ordered by distance;
  they are modelled as lists kept sorted by ascending distance: the min-heap
  pops the head, the max-heap peeks and pops the last element.  Tie order
  inside the heaps is unspecified in the source and immaterial below.
* The mersenne-twister layer sampler (select_layer) is abstracted as an
  oracle: the state carries a list of pending samples; the cap at 32
  (k_max_layer_cap) is kept.
* Locks and metrics counters have no observable effect on results and are
  not modelled.  save_to_storage builds a fresh root from in-memory state
  and never changes the graph, so persistence is modelled as the pure pair
  save_to_storage / load_from_storage.
-/

/-- DistanceMetric from hnsw_config.hpp. -/
inductive DistanceMetric where
  | Euclidean
  | Cosine
  | DotProduct
deriving DecidableEq

/-- HNSWIndexConfig from hnsw_config.hpp (field for field). -/
structure HNSWIndexConfig where
  metric : DistanceMetric
  M : Nat
  M0 : Nat
  ef_construction : Nat
  ef_search : Nat
  ml : ℚ
  vector_dimension : Nat
  random_seed : Nat

/-- HNSWIndexConfig constructor: explicit metric, M=16, M0=32,
ef_construction=200, ef_search=50, ml=1/log 2, dimension 0, seed 42. -/
def HNSWIndexConfig.init (dist_metric : DistanceMetric) : HNSWIndexConfig where
  metric := dist_metric
  M := 16
  M0 := 32
  ef_construction := 200
  ef_search := 50
  ml := 1 / (1.442695040888963 : ℚ)
  vector_dimension := 0
  random_seed := 42

/-- Normalisation performed by both HNSWIndex constructors: M0 defaults to
2*M and ef_search to max(64, M*8), each only when the field is 0. -/
def normalizeConfig (c : HNSWIndexConfig) : HNSWIndexConfig :=
  let c := if c.M0 = 0 then { c with M0 := c.M * 2 } else c
  if c.ef_search = 0 then { c with ef_search := max 64 (c.M * 8) } else c

/-- Error surfaced by validate_vector_dimension (InvalidArgument with a
dimension-mismatch message). -/
inductive HErr where
  | DimensionMismatch
deriving DecidableEq

/-- Node from index_hnsw.hpp: key, vector, top layer, per-layer adjacency. -/
structure Node where
  obj_key : Int
  vector : List ℚ
  layer : Nat
  connections : List (List Int)

/-- In-memory index state: config, m_vectors, m_entry_point (0 = null),
m_entry_point_layer, and the abstracted layer-sampling oracle. -/
structure HState where
  config : HNSWIndexConfig
  nodes : List (Int × Node)
  entry_point : Int
  entry_point_layer : Int
  layerOracle : List Nat

/-- Lookup m_vectors.find(key). -/
def findNode (st : HState) (k : Int) : Option Node :=
  st.nodes.lookup k

/-- In-place mutation of one mapped Node (references into the map stay
valid across value mutation in the source). -/
def updateNode (st : HState) (k : Int) (f : Node → Node) : HState :=
  { st with nodes := st.nodes.map (fun p => if p.1 = k then (p.1, f p.2) else p) }

/-- Assignment m_vectors[key] = node: replace if present, else append. -/
def insertNode (ns : List (Int × Node)) (k : Int) (n : Node) : List (Int × Node) :=
  if ns.any (fun p => p.1 == k) then
    ns.map (fun p => if p.1 = k then (k, n) else p)
  else ns ++ [(k, n)]

/-- Count of indexed vectors, count() / get_num_vectors(). -/
def hnswCount (st : HState) : Nat := st.nodes.length

/-- Dot-product accumulation loop (for i < v1.size: acc += v1[i]*v2[i]);
the kernels assume prevalidated dimensions. -/
def dotAcc (v1 v2 : List ℚ) : ℚ :=
  (v1.zipWith (· * ·) v2).foldl (· + ·) 0

/-- Euclidean kernel: sqrt of the summed squared differences. -/
def euclidean_distance (sq : ℚ → ℚ) (v1 v2 : List ℚ) : ℚ :=
  sq ((v1.zipWith (fun a b => (a - b) * (a - b)) v2).foldl (· + ·) 0)

/-- Cosine kernel: 1 - dot/(sqrt(norm1)*sqrt(norm2)), 1 when a norm is 0. -/
def cosine_distance (sq : ℚ → ℚ) (v1 v2 : List ℚ) : ℚ :=
  let dot := dotAcc v1 v2
  let norm1 := (v1.zipWith (fun a _ => a * a) v2).foldl (· + ·) 0
  let norm2 := (v1.zipWith (fun _ b => b * b) v2).foldl (· + ·) 0
  if norm1 = 0 ∨ norm2 = 0 then 1
  else 1 - dot / (sq norm1 * sq norm2)

/-- Negative-dot-product kernel for maximum inner product search. -/
def dot_product_distance (v1 v2 : List ℚ) : ℚ :=
  -(dotAcc v1 v2)

/-- Metric dispatch of compute_distance. -/
def compute_distance (sq : ℚ → ℚ) (cfg : HNSWIndexConfig) (v1 v2 : List ℚ) : ℚ :=
  match cfg.metric with
  | DistanceMetric.Euclidean => euclidean_distance sq v1 v2
  | DistanceMetric.Cosine => cosine_distance sq v1 v2
  | DistanceMetric.DotProduct => dot_product_distance v1 v2

/-- SearchCandidate: a key paired with its distance to the query. -/
structure SC where
  key : Int
  dist : ℚ
deriving DecidableEq

/-- Heap order on search candidates (compare by distance). -/
def scLE (a b : SC) : Prop := a.dist ≤ b.dist

instance : DecidableRel scLE := fun a b => inferInstanceAs (Decidable (a.dist ≤ b.dist))

instance : IsTotal SC scLE := ⟨fun a b => le_total a.dist b.dist⟩

instance : IsTrans SC scLE := ⟨fun _ _ _ h1 h2 => le_trans h1 h2⟩

/-- Distance of w.top() for the max-heap modelled as an ascending list
(the heap is never empty when the source reads its top). -/
def wTopDist (w : List SC) : ℚ :=
  ((w.getLast?).map SC.dist).getD 0

/-- State of the best-first loop in search_layer_with_distances:
the candidates min-heap, the top-ef max-heap w, and the visited set. -/
structure LoopSt where
  cands : List SC
  w : List SC
  visited : List Int

/-- Body of the neighbour scan inside the greedy-search loop: skip visited,
mark visited, skip keys absent from m_vectors, and push onto both queues
when the distance beats the current worst or w is not yet full, trimming w
back to ef. -/
def stepNeighbor (sq : ℚ → ℚ) (st : HState) (q : List ℚ) (ef : Nat)
    (acc : LoopSt) (nb : Int) : LoopSt :=
  if acc.visited.contains nb then acc
  else
    let visited := nb :: acc.visited
    match findNode st nb with
    | none => { acc with visited := visited }
    | some nbNode =>
      let d := compute_distance sq st.config q nbNode.vector
      if d < wTopDist acc.w ∨ acc.w.length < ef then
        let w := acc.w.orderedInsert scLE ⟨nb, d⟩
        let w := if ef < w.length then w.dropLast else w
        { cands := acc.cands.orderedInsert scLE ⟨nb, d⟩, w := w, visited := visited }
      else { acc with visited := visited }

/-- Greedy-search loop of search_layer_with_distances.  Pops the nearest
candidate, terminates when it is worse than the worst of a full w, skips
keys absent from m_vectors and layers the node does not reach, otherwise
scans the neighbours at the layer.  The fuel argument dominates the
iteration count (every pushed candidate marks a fresh visited key, so at
most nodes.length + 1 pops happen); it is only a termination device. -/
def searchLoop (sq : ℚ → ℚ) (st : HState) (q : List ℚ) (ef : Nat) (ℓ : Nat) :
    Nat → LoopSt → List SC
  | 0, s => s.w
  | Nat.succ fuel, s =>
    match s.cands with
    | [] => s.w
    | c :: rest =>
      if wTopDist s.w < c.dist ∧ ef ≤ s.w.length then s.w
      else
        match findNode st c.key with
        | none => searchLoop sq st q ef ℓ fuel { s with cands := rest }
        | some node =>
          if node.connections.length ≤ ℓ then
            searchLoop sq st q ef ℓ fuel { s with cands := rest }
          else
            searchLoop sq st q ef ℓ fuel
              ((node.connections.getD ℓ []).foldl (stepNeighbor sq st q ef)
                { s with cands := rest })

/-- Search one layer, returning the best candidates in ascending distance
order (the source drains the max-heap and reverses; with w kept as an
ascending list the drained-and-reversed result is w itself). -/
def search_layer_with_distances (sq : ℚ → ℚ) (st : HState) (q : List ℚ)
    (entry : Int) (ef : Nat) (ℓ : Nat) : List SC :=
  if entry = 0 ∨ st.nodes.isEmpty then []
  else
    match findNode st entry with
    | none => []
    | some en =>
      let d := compute_distance sq st.config q en.vector
      searchLoop sq st q ef ℓ (st.nodes.length + 1)
        ⟨[⟨entry, d⟩], [⟨entry, d⟩], [entry]⟩

/-- Key-only wrapper search_layer. -/
def search_layer (sq : ℚ → ℚ) (st : HState) (q : List ℚ)
    (entry : Int) (ef : Nat) (ℓ : Nat) : List Int :=
  (search_layer_with_distances sq st q entry ef ℓ).map SC.key

/-- Layer indices visited by a descent loop (for lc = hi; lc > lowExcl; --lc). -/
def layersDownTo (hi lowExcl : Int) : List Nat :=
  (List.range (hi - lowExcl).toNat).map (fun i => (hi - i).toNat)

/-- Descent with ef = 1 from the top layer: the nearest result of each
layer search becomes the next start point when non-empty. -/
def hnswDescend (sq : ℚ → ℚ) (st : HState) (q : List ℚ)
    (layers : List Nat) (start : Int) : Int :=
  layers.foldl
    (fun curr lc =>
      match search_layer sq st q curr 1 lc with
      | [] => curr
      | r :: _ => r)
    start

/-- Simple selector: keep the first M candidates (already distance-sorted). -/
def select_neighbors_simple (candidates : List SC) (M : Nat) : List Int :=
  (candidates.take M).map SC.key

/-- Distance-sorted copy, std::sort with the by-distance comparator (tie
order is unspecified in the source; mergeSort is one admissible order). -/
def sortByDist (l : List SC) : List SC :=
  l.mergeSort (fun a b => a.dist ≤ b.dist)

/-- Extension phase of select_neighbors_heuristic: walk the candidates,
append each unseen layer-neighbour present in m_vectors together with its
distance to the query, tracking membership of the working set. -/
def extendWorkingSet (sq : ℚ → ℚ) (st : HState) (q : List ℚ) (ℓ : Nat)
    (candidates : List SC) : List SC :=
  let seed : List SC × List Int := (candidates, candidates.map SC.key)
  let out :=
    candidates.foldl
      (fun acc c =>
        match findNode st c.key with
        | none => acc
        | some cn =>
          if cn.connections.length ≤ ℓ then acc
          else
            (cn.connections.getD ℓ []).foldl
              (fun (acc : List SC × List Int) nb =>
                if acc.2.contains nb then acc
                else
                  match findNode st nb with
                  | none => acc
                  | some nbN =>
                    (acc.1 ++ [⟨nb, compute_distance sq st.config q nbN.vector⟩],
                     nb :: acc.2))
              acc)
      seed
  out.1

/-- Diversity filter of select_neighbors_heuristic: accept a candidate when
no already-selected neighbour is strictly closer to it than the candidate
is to the query; stop at M. -/
def diversitySelect (sq : ℚ → ℚ) (st : HState) (working : List SC) (M : Nat) :
    List Int :=
  working.foldl
    (fun result c =>
      if M ≤ result.length then result
      else
        let shouldAdd :=
          match findNode st c.key with
          | none => true
          | some cn =>
            result.all (fun sel =>
              match findNode st sel with
              | none => true
              | some sn =>
                !(compute_distance sq st.config cn.vector sn.vector < c.dist))
        if shouldAdd then result ++ [c.key] else result)
    []

/-- select_neighbors_heuristic: optional extend-by-neighbours phase with a
re-sort, then the diversity filter. -/
def select_neighbors_heuristic (sq : ℚ → ℚ) (st : HState) (q : List ℚ)
    (candidates : List SC) (M : Nat) (ℓ : Nat) (extend_candidates : Bool) :
    List Int :=
  let working :=
    if extend_candidates then sortByDist (extendWorkingSet sq st q ℓ candidates)
    else candidates
  diversitySelect sq st working M

/-- Grow a per-layer adjacency table with empty layers up to the index. -/
def growTo (conns : List (List Int)) (n : Nat) : List (List Int) :=
  conns ++ List.replicate (n - conns.length) []

/-- connect_nodes: no-op unless both keys are mapped; grow both adjacency
tables to the layer, then append each key to the other side when absent.
The two sides are updated in sequence, which also reproduces the aliased
behaviour when node1 = node2. -/
def connect_nodes (st : HState) (node1 node2 : Int) (ℓ : Nat) : HState :=
  match findNode st node1, findNode st node2 with
  | some _, some _ =>
    let st :=
      updateNode st node1 (fun n =>
        let conns := growTo n.connections (ℓ + 1)
        let c := conns.getD ℓ []
        { n with connections := conns.set ℓ (if c.contains node2 then c else c ++ [node2]) })
    updateNode st node2 (fun n =>
      let conns := growTo n.connections (ℓ + 1)
      let c := conns.getD ℓ []
      { n with connections := conns.set ℓ (if c.contains node1 then c else c ++ [node1]) })
  | _, _ => st

/-- disconnect_nodes outside any loop over the affected vectors: remove
each key from the other side's layer list when that layer exists. -/
def disconnect_nodes (st : HState) (node1 node2 : Int) (ℓ : Nat) : HState :=
  match findNode st node1, findNode st node2 with
  | some _, some _ =>
    let st :=
      updateNode st node1 (fun n =>
        if ℓ < n.connections.length then
          { n with connections := n.connections.set ℓ ((n.connections.getD ℓ []).filter (· ≠ node2)) }
        else n)
    updateNode st node2 (fun n =>
      if ℓ < n.connections.length then
        { n with connections := n.connections.set ℓ ((n.connections.getD ℓ []).filter (· ≠ node1)) }
      else n)
  | _, _ => st

/-- Effect of conn.erase(std::remove(conn.begin(), conn.end(), x), conn.end())
on the physical buffer of a vector of logical length len: the kept elements
are compacted to the front, slots from the new length up to the old physical
length keep their previous contents (moved-from slots of a trivially
copyable element type), and the logical length shrinks to the kept count. -/
def removeFromBuffer (phys : List Int) (len : Nat) (x : Int) : List Int × Nat :=
  let kept := (phys.take len).filter (· ≠ x)
  (kept ++ phys.drop kept.length, kept.length)

/-- disconnect_nodes(k, nb, layer) called while a range-for is iterating the
very vector conn1 = node(k).connections[layer]: the k side acts on the
iterated physical buffer, the nb side on the map.  When nb is absent from
m_vectors nothing at all is removed; when nb = k both erases hit the same
vector (the second is then a no-op). -/
def discStep (st : HState) (k : Int) (ℓ : Nat) (phys : List Int) (len : Nat)
    (nb : Int) : HState × List Int × Nat :=
  if nb = k then
    let r := removeFromBuffer phys len k
    (st, r.1, r.2)
  else
    match findNode st nb with
    | none => (st, phys, len)
    | some _ =>
      let r := removeFromBuffer phys len nb
      let st :=
        updateNode st nb (fun n =>
          if ℓ < n.connections.length then
            { n with connections := n.connections.set ℓ ((n.connections.getD ℓ []).filter (· ≠ k)) }
          else n)
      (st, r.1, r.2)

/-- Neighbour loop of erase at one layer: a C++ range-for whose begin/end
were captured before the first disconnect_nodes call erases elements from
the iterated vector.  The iterator therefore walks the original physical
buffer positions 0..endPos-1 while the logical list shrinks under it; the
physical length never changes, so every read hits a (possibly stale) slot. -/
def eraseLoopGo (k : Int) (ℓ : Nat) :
    Nat → Nat → HState → List Int → Nat → HState × List Int × Nat
  | 0, _, st, phys, len => (st, phys, len)
  | Nat.succ remaining, pos, st, phys, len =>
    let nb := phys.getD pos 0
    let r := discStep st k ℓ phys len nb
    eraseLoopGo k ℓ remaining (pos + 1) r.1 r.2.1 r.2.2

/-- One layer of the disconnect phase of erase: run the neighbour loop over
the node's layer list and write the surviving logical prefix back. -/
def eraseLayer (st : HState) (k : Int) (ℓ : Nat) : HState :=
  match findNode st k with
  | none => st
  | some nk =>
    if ℓ < nk.connections.length then
      let buf := nk.connections.getD ℓ []
      let r := eraseLoopGo k ℓ buf.length 0 st buf buf.length
      updateNode r.1 k (fun n => { n with connections := n.connections.set ℓ (r.2.1.take r.2.2) })
    else st

/-- erase: look up the node (no-op when absent), disconnect every neighbour
at layers 0..node.layer, remove the node from m_vectors, and when it was the
entry point rescan the remaining nodes for the greatest top layer (null
entry and layer -1 when the graph became empty). -/
def hnswErase (st : HState) (k : Int) : HState :=
  match findNode st k with
  | none => st
  | some node =>
    let st := (List.range (node.layer + 1)).foldl (fun s ℓ => eraseLayer s k ℓ) st
    let st := { st with nodes := st.nodes.filter (fun p => p.1 ≠ k) }
    if k = st.entry_point then
      let best :=
        st.nodes.foldl
          (fun (acc : Int × Int) p =>
            if (p.2.layer : Int) > acc.2 then (p.2.obj_key, (p.2.layer : Int)) else acc)
          (0, -1)
      { st with entry_point := best.1, entry_point_layer := best.2 }
    else st

/-- Removal loop of prune_connections: the same captured-end iteration over
node(k).connections[layer] as in erase, but disconnect_nodes only fires for
neighbours outside the freshly selected set. -/
def pruneLoopGo (k : Int) (ℓ : Nat) (keep : List Int) :
    Nat → Nat → HState → List Int → Nat → HState × List Int × Nat
  | 0, _, st, phys, len => (st, phys, len)
  | Nat.succ remaining, pos, st, phys, len =>
    let nb := phys.getD pos 0
    let r := if keep.contains nb then (st, phys, len) else discStep st k ℓ phys len nb
    pruneLoopGo k ℓ keep remaining (pos + 1) r.1 r.2.1 r.2.2

/-- prune_connections: no-op when the key is unmapped, the layer is not
reached, or the layer list is within the cap (M0 at layer 0, M above).
Otherwise re-select max_conn diverse neighbours from the current ones (those
present in m_vectors, sorted by distance), disconnect the dropped ones, and
overwrite the layer list with the selection. -/
def prune_connections (sq : ℚ → ℚ) (st : HState) (k : Int) (ℓ : Nat) : HState :=
  match findNode st k with
  | none => st
  | some node =>
    if node.connections.length ≤ ℓ then st
    else
      let max_conn := if ℓ = 0 then st.config.M0 else st.config.M
      let conns := node.connections.getD ℓ []
      if conns.length ≤ max_conn then st
      else
        let candidates :=
          conns.filterMap (fun nb =>
            (findNode st nb).map (fun nbN =>
              SC.mk nb (compute_distance sq st.config node.vector nbN.vector)))
        let candidates := sortByDist candidates
        let new_neighbors :=
          select_neighbors_heuristic sq st node.vector candidates max_conn ℓ false
        let r := pruneLoopGo k ℓ new_neighbors conns.length 0 st conns conns.length
        updateNode r.1 k (fun n => { n with connections := n.connections.set ℓ new_neighbors })

/-- select_layer: draw the next sample from the abstracted geometric
sampler and clamp it to k_max_layer_cap = 32. -/
def select_layer (st : HState) : Nat × HState :=
  let sample := st.layerOracle.headD 0
  (min sample 32, { st with layerOracle := st.layerOracle.tail })

/-- Linking phase of insert, for lc = node_layer down to 0: gather
candidates with ef_construction, select neighbours (simple at layer 0,
extended heuristic above), connect the new node to each, prune each
neighbour, and advance the start point to the nearest candidate. -/
def insertLinkLayer (sq : ℚ → ℚ) (q : List ℚ) (key : Int)
    (acc : HState × Int) (lc : Nat) : HState × Int :=
  let st := acc.1
  let curr := acc.2
  let candidates := search_layer_with_distances sq st q curr st.config.ef_construction lc
  let M := if lc = 0 then st.config.M0 else st.config.M
  let neighbors :=
    if lc = 0 then select_neighbors_simple candidates M
    else select_neighbors_heuristic sq st q candidates M lc true
  let st := neighbors.foldl (fun s nb => connect_nodes s key nb lc) st
  let st := neighbors.foldl (fun s nb => prune_connections sq s nb lc) st
  let curr := match candidates with | [] => curr | c :: _ => c.key
  (st, curr)

/-- insert: fetch the row's vector from the host column (empty means no
vector, skip), validate the dimension (the first vector fixes it), sample
the layer, create the node; the first node becomes the entry point,
otherwise descend to node_layer + 1, register the node, link it layer by
layer down to 0, and raise the entry point when the node tops it. -/
def hnswInsert (sq : ℚ → ℚ) (src : Int → List ℚ) (st : HState) (key : Int) :
    Option HErr × HState :=
  let vector := src key
  if vector.isEmpty then (none, st)
  else if st.config.vector_dimension ≠ 0 ∧ vector.length ≠ st.config.vector_dimension then
    (some HErr.DimensionMismatch, st)
  else
    let st :=
      if st.config.vector_dimension = 0 then
        { st with config := { st.config with vector_dimension := vector.length } }
      else st
    let sl := select_layer st
    let node_layer := sl.1
    let st := sl.2
    let new_node : Node :=
      { obj_key := key, vector := vector, layer := node_layer,
        connections := List.replicate (node_layer + 1) [] }
    if st.nodes.isEmpty then
      (none, { st with nodes := insertNode st.nodes key new_node,
                       entry_point := key, entry_point_layer := (node_layer : Int) })
    else
      let curr :=
        hnswDescend sq st vector (layersDownTo st.entry_point_layer (node_layer : Int))
          st.entry_point
      let st := { st with nodes := insertNode st.nodes key new_node }
      let linked :=
        ((List.range (node_layer + 1)).reverse).foldl
          (insertLinkLayer sq vector key) (st, curr)
      let st := linked.1
      let st :=
        if (node_layer : Int) > st.entry_point_layer then
          { st with entry_point := key, entry_point_layer := (node_layer : Int) }
        else st
      (none, st)

/-- set: erase the key then insert it again; an exception thrown by the
insert phase leaves the already-committed erase in place. -/
def hnswSet (sq : ℚ → ℚ) (src : Int → List ℚ) (st : HState) (key : Int) :
    Option HErr × HState :=
  hnswInsert sq src (hnswErase st key) key

/-- clear: drop every node, null the entry point, reset the entry layer. -/
def hnswClear (st : HState) : HState :=
  { st with nodes := [], entry_point := 0, entry_point_layer := -1 }

/-- Effective ef used by search_knn (source lines: when the caller passed 0
take max(config.ef_search, k), then clamp to the node count). -/
def effectiveEf (cfgEf n k efs : Nat) : Nat :=
  min (if efs = 0 then max cfgEf k else efs) n

/-- Effective ef as the specification words it: max(ef_search if supplied
else the config default, k), clamped to the node count.  Modelled from the
spec for comparison with effectiveEf, not from the source. -/
def specEffectiveEf (cfgEf n k efs : Nat) : Nat :=
  min (max (if efs = 0 then cfgEf else efs) k) n

/-- search_knn: empty graph or null entry point returns empty; k = 0
returns empty; only then is the query dimension validated; then ef and k
are clamped, the descent walks from the entry layer down to layer 1, and
the layer-0 search result is truncated to k. -/
def search_knn (sq : ℚ → ℚ) (st : HState) (q : List ℚ) (k : Nat)
    (efs : Nat) : Except HErr (List SC) :=
  if st.nodes.isEmpty ∨ st.entry_point = 0 then Except.ok []
  else if k = 0 then Except.ok []
  else if st.config.vector_dimension ≠ 0 ∧ q.length ≠ st.config.vector_dimension then
    Except.error HErr.DimensionMismatch
  else
    let ef := effectiveEf st.config.ef_search st.nodes.length k efs
    let k2 := min k st.nodes.length
    let start := hnswDescend sq st q (layersDownTo st.entry_point_layer 0) st.entry_point
    let results := search_layer_with_distances sq st q start ef 0
    Except.ok (if k2 < results.length then results.take k2 else results)

/-- search_radius: empty graph returns empty, a negative threshold returns
empty, then the query is validated; a k-NN search over all nodes with an
enlarged ef is filtered by the sorted prefix within the threshold. -/
def search_radius (sq : ℚ → ℚ) (st : HState) (q : List ℚ) (max_distance : ℚ) :
    Except HErr (List SC) :=
  if st.nodes.isEmpty ∨ st.entry_point = 0 then Except.ok []
  else if max_distance < 0 then Except.ok []
  else if st.config.vector_dimension ≠ 0 ∧ q.length ≠ st.config.vector_dimension then
    Except.error HErr.DimensionMismatch
  else
    let ef_large := min (st.config.ef_search * 2) (max st.config.ef_search st.nodes.length)
    match search_knn sq st q st.nodes.length ef_large with
    | Except.error e => Except.error e
    | Except.ok results => Except.ok (results.takeWhile (fun p => p.dist ≤ max_distance))

/-- Per-node persisted array: slot 0 the info array [row_key, top_layer],
slot 1 the vector array (each element the lossless int64 bit-cast of one
double component, modelled by the identity encoding), slots 2.. one
adjacency array per layer 0..top_layer. -/
structure NodeRec where
  info : List Int
  vec : List ℚ
  conns : List (List Int)

/-- Persisted root: slot 0 the metadata array [format-version, entry-point,
entry-layer, dimension, M, ef_construction, ef_search], slots 1..N the
per-node arrays. -/
structure Root where
  meta : List Int
  recs : List NodeRec

/-- Per-node array built by save_to_storage: layers 0..top_layer are
written, an absent layer becomes an empty adjacency array. -/
def saveNodeRec (n : Node) : NodeRec where
  info := [n.obj_key, (n.layer : Int)]
  vec := n.vector
  conns := (List.range (n.layer + 1)).map (fun ℓ => n.connections.getD ℓ [])

/-- save_to_storage: fresh metadata from the in-memory fields, then one
per-node array per map entry. -/
def save_to_storage (st : HState) : Root where
  meta :=
    [1, st.entry_point, st.entry_point_layer, (st.config.vector_dimension : Int),
     (st.config.M : Int), (st.config.ef_construction : Int), (st.config.ef_search : Int)]
  recs := st.nodes.map (fun p => saveNodeRec p.2)

/-- Node rebuilt by load_from_storage from one per-node array: key and
top layer from the info array, the vector decoded component-wise, the
adjacency resized to top_layer + 1 and filled from the stored layers. -/
def loadNodeRec (r : NodeRec) : Node where
  obj_key := r.info.getD 0 0
  vector := r.vec
  layer := (r.info.getD 1 0).toNat
  connections :=
    (List.range ((r.info.getD 1 0).toNat + 1)).map (fun ℓ => r.conns.getD ℓ [])

/-- Node-loading phase: each per-node array is decoded and assigned into
m_vectors keyed by its own row key. -/
def loadNodes (recs : List NodeRec) : List (Int × Node) :=
  recs.foldl (fun ns r => insertNode ns (loadNodeRec r).obj_key (loadNodeRec r)) []

/-- load_from_storage, run by the attaching constructor over its supplied
config: metadata (when at least 7 slots are present) restores entry point,
entry layer, dimension, M, ef_construction and ef_search, and the asserted
format version must be 1 (none models the tripped assertion); then the
nodes are decoded. -/
def load_from_storage (cfg : HNSWIndexConfig) (root : Root) : Option HState :=
  if 7 ≤ root.meta.length then
    if root.meta.getD 0 0 = 1 then
      some
        { config :=
            { cfg with
              vector_dimension := (root.meta.getD 3 0).toNat,
              M := (root.meta.getD 4 0).toNat,
              ef_construction := (root.meta.getD 5 0).toNat,
              ef_search := (root.meta.getD 6 0).toNat },
          nodes := loadNodes root.recs,
          entry_point := root.meta.getD 1 0,
          entry_point_layer := root.meta.getD 2 0,
          layerOracle := [] }
    else none
  else
    some
      { config := cfg, nodes := loadNodes root.recs, entry_point := 0,
        entry_point_layer := -1, layerOracle := [] }

/-- Decidable check that some remaining adjacency list mentions a key. -/
def adjacencyMentions (st : HState) (k : Int) : Bool :=
  st.nodes.any (fun p => p.2.connections.any (fun l => l.contains k))

/-- Decidable symmetry-with-existence check of invariant 3 of the data
model: every adjacency entry at a layer the node reaches names a mapped
node whose same-layer adjacency names the node back. -/
def symmetricState (st : HState) : Bool :=
  st.nodes.all (fun p =>
    (List.range (p.2.layer + 1)).all (fun ℓ =>
      (p.2.connections.getD ℓ []).all (fun b =>
        match findNode st b with
        | none => false
        | some bn => (bn.connections.getD ℓ []).contains p.1)))

instance instDecEqExceptHErr {α : Type} [DecidableEq α] : DecidableEq (Except HErr α) := fun a b =>
  match a, b with
  | Except.ok x, Except.ok y =>
    if h : x = y then isTrue (by rw [h]) else isFalse (fun hh => h (Except.ok.inj hh))
  | Except.error x, Except.error y =>
    if h : x = y then isTrue (by rw [h]) else isFalse (fun hh => h (Except.error.inj hh))
  | Except.ok _, Except.error _ => isFalse (fun hh => Except.noConfusion hh)
  | Except.error _, Except.ok _ => isFalse (fun hh => Except.noConfusion hh)

/-- Stand-in for std::sqrt used when instantiating theorems on concrete
states; every theorem below quantifies over the sqrt parameter, and the
concrete states use the DotProduct metric or never reach a kernel, so the
choice is immaterial. -/
def sq0 : ℚ → ℚ := fun q => q

/-- Dot-product configuration with the dimension fixed at 1. -/
def cfgDot : HNSWIndexConfig :=
  { HNSWIndexConfig.init DistanceMetric.DotProduct with vector_dimension := 1 }

/-- Layer-0 node used by the concrete erase scenarios. -/
def nodeWith (k : Int) (cs : List (List Int)) : Node where
  obj_key := k
  vector := [1]
  layer := 0
  connections := cs

/-- Symmetric four-node graph: key 1 is linked to 2, 3 and 4 at layer 0. -/
def stQuad : HState where
  config := cfgDot
  nodes := [(1, nodeWith 1 [[2, 3, 4]]), (2, nodeWith 2 [[1]]),
            (3, nodeWith 3 [[1]]), (4, nodeWith 4 [[1]])]
  entry_point := 1
  entry_point_layer := 0
  layerOracle := []

/-- Single-node dot-product graph: key 5 with vector [2]. -/
def stOne : HState where
  config := cfgDot
  nodes := [(5, { obj_key := 5, vector := [2], layer := 0, connections := [[]] })]
  entry_point := 5
  entry_point_layer := 0
  layerOracle := []

/-- Euclidean configuration with the dimension fixed at 2. -/
def cfgEu2 : HNSWIndexConfig :=
  { HNSWIndexConfig.init DistanceMetric.Euclidean with vector_dimension := 2 }

/-- Empty graph whose dimension is already fixed at 2 (as after erasing or
clearing every row of a 2-dimensional index). -/
def stEmpty2 : HState where
  config := cfgEu2
  nodes := []
  entry_point := 0
  entry_point_layer := -1
  layerOracle := []

/-- One indexed 2-dimensional row under key 1. -/
def stPair : HState where
  config := cfgEu2
  nodes := [(1, { obj_key := 1, vector := [1, 2], layer := 0, connections := [[]] })]
  entry_point := 1
  entry_point_layer := 0
  layerOracle := []

/-- Host column contents for the update scenario: row 1 now carries a
3-component vector. -/
def src0 : Int → List ℚ := fun k => if k = 1 then [1, 2, 3] else []

/-- Euclidean configuration whose ef_search field is 0, the only case in
which the constructor normalisation fires. -/
def cfgZeroEf : HNSWIndexConfig :=
  { HNSWIndexConfig.init DistanceMetric.Euclidean with ef_search := 0 }

theorem stepNeighbor_w_sorted (sq : ℚ → ℚ) (st : HState) (q : List ℚ) (ef : Nat)
    (acc : LoopSt) (nb : Int) (h : acc.w.Sorted scLE) :
    ((stepNeighbor sq st q ef acc nb).w).Sorted scLE := by
  unfold stepNeighbor
  split
  · exact h
  · cases hf : findNode st nb with
    | none => simpa using h
    | some nbNode =>
      simp only
      split
      · by_cases hl : ef < (acc.w.orderedInsert scLE
          ⟨nb, compute_distance sq st.config q nbNode.vector⟩).length
        · simpa [hl] using (h.orderedInsert _ _).sublist (List.dropLast_sublist _)
        · simpa [hl] using h.orderedInsert _ _
      · exact h

theorem foldl_stepNeighbor_w_sorted (sq : ℚ → ℚ) (st : HState) (q : List ℚ)
    (ef : Nat) (l : List Int) (acc : LoopSt) (h : acc.w.Sorted scLE) :
    ((l.foldl (stepNeighbor sq st q ef) acc).w).Sorted scLE := by
  induction l generalizing acc with
  | nil => exact h
  | cons x xs ih => exact ih _ (stepNeighbor_w_sorted sq st q ef acc x h)

theorem searchLoop_sorted (sq : ℚ → ℚ) (st : HState) (q : List ℚ) (ef : Nat)
    (ℓ : Nat) (fuel : Nat) (s : LoopSt) (h : s.w.Sorted scLE) :
    (searchLoop sq st q ef ℓ fuel s).Sorted scLE := by
  induction fuel generalizing s with
  | zero => exact h
  | succ n ih =>
    obtain ⟨cands, w, visited⟩ := s
    cases cands with
    | nil => exact h
    | cons c rest =>
      simp only [searchLoop]
      split
      · exact h
      · cases hf : findNode st c.key with
        | none =>
          simp only [hf]
          exact ih _ h
        | some node =>
          simp only [hf]
          split
          · exact ih _ h
          · exact ih _ (foldl_stepNeighbor_w_sorted sq st q ef _ _ h)

theorem search_layer_with_distances_sorted (sq : ℚ → ℚ) (st : HState)
    (q : List ℚ) (entry : Int) (ef : Nat) (ℓ : Nat) :
    (search_layer_with_distances sq st q entry ef ℓ).Sorted scLE := by
  unfold search_layer_with_distances
  split
  · exact List.sorted_nil
  · cases hf : findNode st entry with
    | none => exact List.sorted_nil
    | some en =>
      exact searchLoop_sorted sq st q ef ℓ _ _ (List.sorted_singleton _)

theorem updateNode_config (st : HState) (k : Int) (f : Node → Node) :
    (updateNode st k f).config = st.config := rfl

theorem discStep_config (st : HState) (k : Int) (ℓ : Nat) (phys : List Int)
    (len : Nat) (nb : Int) : (discStep st k ℓ phys len nb).1.config = st.config := by
  unfold discStep
  split
  · rfl
  · cases findNode st nb <;> rfl

theorem eraseLoopGo_config (k : Int) (ℓ : Nat) (remaining pos : Nat) (st : HState)
    (phys : List Int) (len : Nat) :
    (eraseLoopGo k ℓ remaining pos st phys len).1.config = st.config := by
  induction remaining generalizing pos st phys len with
  | zero => rfl
  | succ n ih =>
    unfold eraseLoopGo
    rw [ih]
    exact discStep_config st k ℓ phys len (phys.getD pos 0)

theorem eraseLayer_config (st : HState) (k : Int) (ℓ : Nat) :
    (eraseLayer st k ℓ).config = st.config := by
  unfold eraseLayer
  cases findNode st k with
  | none => rfl
  | some nk =>
    simp only
    split
    · rw [updateNode_config, eraseLoopGo_config]
    · rfl

theorem hnswErase_config (st : HState) (k : Int) :
    (hnswErase st k).config = st.config := by
  unfold hnswErase
  cases findNode st k with
  | none => rfl
  | some node =>
    simp only
    have hfold : ∀ (ls : List Nat) (s : HState),
        (ls.foldl (fun s ℓ => eraseLayer s k ℓ) s).config = s.config := by
      intro ls
      induction ls with
      | nil => intro s; rfl
      | cons x xs ih => intro s; rw [List.foldl_cons, ih, eraseLayer_config]
    split
    · simp only [HState.mk.injEq]
      rw [hfold]
    · rw [hfold]

theorem getD_range_map {α : Type} (l : List α) (d : α) :
    (List.range l.length).map (fun i => l.getD i d) = l := by
  apply List.ext_getElem
  · simp
  · intro i h1 h2
    simp only [List.getElem_map, List.getElem_range]
    rw [List.getD_eq_getElem]

theorem loadNodeRec_saveNodeRec (n : Node) (h : n.connections.length = n.layer + 1) :
    loadNodeRec (saveNodeRec n) = n := by
  obtain ⟨k, v, L, cs⟩ := n
  simp only at h
  simp only [loadNodeRec, saveNodeRec, List.getD_cons_zero, List.getD_cons_succ,
    Int.toNat_natCast, Node.mk.injEq, true_and]
  apply List.ext_getElem
  · simp [h]
  · intro i h1 h2
    have hi : i < L + 1 := by simpa using h1
    simp only [List.getElem_map, List.getElem_range]
    rw [List.getD_eq_getElem _ _ (by simpa using hi)]
    simp only [List.getElem_map, List.getElem_range]
    rw [List.getD_eq_getElem _ _ (by omega)]

theorem insertNode_fresh (ns : List (Int × Node)) (k : Int) (n : Node)
    (h : ∀ p ∈ ns, p.1 ≠ k) : insertNode ns k n = ns ++ [(k, n)] := by
  unfold insertNode
  rw [if_neg]
  simp only [List.any_eq_true, beq_iff_eq, not_exists]
  intro p hc
  exact h p hc.1 hc.2

theorem loadNodes_append (ns : List (Int × Node)) (acc : List (Int × Node))
    (hkey : ∀ p ∈ ns, p.2.obj_key = p.1)
    (hconn : ∀ p ∈ ns, p.2.connections.length = p.2.layer + 1)
    (hfresh : ∀ p ∈ ns, ∀ a ∈ acc, a.1 ≠ p.1)
    (hnodup : (ns.map Prod.fst).Nodup) :
    (ns.map (fun p => saveNodeRec p.2)).foldl
      (fun ms r => insertNode ms (loadNodeRec r).obj_key (loadNodeRec r)) acc
      = acc ++ ns := by
  induction ns generalizing acc with
  | nil => simp
  | cons p ps ih =>
    simp only [List.map_cons, List.foldl_cons]
    rw [loadNodeRec_saveNodeRec p.2 (hconn p (by simp)), hkey p (by simp)]
    rw [insertNode_fresh acc p.1 p.2 (fun a ha => hfresh p (by simp) a ha)]
    rw [ih (acc ++ [(p.1, p.2)])
      (fun q hq => hkey q (by simp [hq]))
      (fun q hq => hconn q (by simp [hq]))
      ?_ ?_]
    · simp
    · intro q hq a ha
      rcases List.mem_append.mp ha with ha1 | ha2
      · exact hfresh q (by simp [hq]) a ha1
      · have : a = (p.1, p.2) := by simpa using ha2
        subst this
        simp only [List.map_cons, List.nodup_cons] at hnodup
        intro hcontra
        exact hnodup.1 (hcontra ▸ List.mem_map_of_mem Prod.fst hq)
    · simpa using hnodup.of_cons

/-- C1: the claim says that after erase(k) no remaining node's adjacency
contains k at any layer.  On the symmetric four-node graph stQuad, erasing
key 1 removes the node but node 3 still lists 1 at layer 0: the disconnect
loop of erase ranges over node(1).connections[0] while disconnect_nodes
erases the current element from that same vector, so the captured iterator
skips an element (and the stale tail slot is re-read instead). -/
theorem erase_leaves_dangling_reference :
    symmetricState stQuad = true
    ∧ (findNode (hnswErase stQuad 1) 1).isNone = true
    ∧ (findNode (hnswErase stQuad 1) 3).map Node.connections = some [[1]] := by
  decide

/-- C2: the claim says graph symmetry (with existence of every referenced
node) is preserved by every mutation.  Erasing key 1 from the symmetric
graph stQuad leaves the dangling reference 1 inside node 3's layer-0
adjacency, so the invariant fails after a committed erase. -/
theorem erase_breaks_symmetry_invariant :
    symmetricState stQuad = true
    ∧ symmetricState (hnswErase stQuad 1) = false
    ∧ adjacencyMentions (hnswErase stQuad 1) 1 = true := by
  decide

/-- C3 counterexample: set(1) on a 1-node index whose host row now holds a
3-component vector (dimension fixed at 2) fails with DimensionMismatch but
does not leave the graph state exactly as before the call: the previously
indexed node 1 is gone, because set runs erase to completion before the
insert phase validates. -/
theorem set_mismatch_loses_node :
    (hnswSet sq0 src0 stPair 1).1 = some HErr.DimensionMismatch
    ∧ (findNode (hnswSet sq0 src0 stPair 1).2 1).isNone = true
    ∧ (findNode stPair 1).isSome = true
    ∧ (hnswSet sq0 src0 stPair 1).2 ≠ stPair := by
  refine ⟨by decide, by decide, by decide, ?_⟩
  intro hcontra
  have : (findNode (hnswSet sq0 src0 stPair 1).2 1).isNone
      = (findNode stPair 1).isNone := by rw [hcontra]
  rw [show (findNode (hnswSet sq0 src0 stPair 1).2 1).isNone = true from by decide] at this
  rw [show (findNode stPair 1).isNone = false from by decide] at this
  exact absurd this (by decide)

/-- C3 (amended): a mutation on an index with fixed dimension D whose
fetched vector has a different non-zero length fails with
DimensionMismatch; insert leaves the state exactly unchanged (validation
precedes node creation), but set = erase-then-insert leaves the state the
erase produced, so the previously indexed node is lost. -/
theorem mismatch_insert_unchanged_set_erases (sq : ℚ → ℚ) (src : Int → List ℚ)
    (st : HState) (k : Int) (h1 : (src k).isEmpty = false)
    (h2 : st.config.vector_dimension ≠ 0)
    (h3 : (src k).length ≠ st.config.vector_dimension) :
    hnswInsert sq src st k = (some HErr.DimensionMismatch, st)
    ∧ hnswSet sq src st k = (some HErr.DimensionMismatch, hnswErase st k) := by
  have hins : ∀ s : HState, s.config = st.config →
      hnswInsert sq src s k = (some HErr.DimensionMismatch, s) := by
    intro s hs
    unfold hnswInsert
    rw [if_neg (by simp [h1]), if_pos ⟨by rw [hs]; exact h2, by rw [hs]; exact h3⟩]
  exact ⟨hins st rfl, by
    unfold hnswSet
    exact hins (hnswErase st k) (hnswErase_config st k)⟩

/-- C3 witness: the amended statement instantiated on the concrete 1-node
index and host column of the counterexample. -/
theorem mismatch_insert_unchanged_set_erases_witness :
    hnswInsert sq0 src0 stPair 1 = (some HErr.DimensionMismatch, stPair)
    ∧ hnswSet sq0 src0 stPair 1 = (some HErr.DimensionMismatch, hnswErase stPair 1) :=
  mismatch_insert_unchanged_set_erases sq0 src0 stPair 1 (by decide) (by decide) (by decide)

/-- C4 counterexample: on the empty graph stEmpty2 whose dimension is fixed
at 2, search_knn with the 3-component query returns ok [] instead of the
DimensionMismatch the claim demands: the source checks the empty-graph and
k = 0 shortcuts before validating the query. -/
theorem empty_graph_mismatched_query_ok :
    stEmpty2.config.vector_dimension = 2
    ∧ search_knn sq0 stEmpty2 [0, 0, 0] 1 0 = Except.ok []
    ∧ search_knn sq0 stEmpty2 [0, 0, 0] 1 0 ≠ Except.error HErr.DimensionMismatch := by
  decide

/-- C4 (amended): search_knn validates the query dimension only after the
empty-graph and k = 0 shortcuts: an empty graph or k = 0 yields ok []
regardless of the query length, and only a non-empty graph with a non-null
entry point, k above 0 and a fixed dimension rejects a mismatched query
with DimensionMismatch. -/
theorem knn_validation_after_shortcuts (sq : ℚ → ℚ) (st : HState) (q : List ℚ)
    (k efs : Nat) :
    (st.nodes.isEmpty = true → search_knn sq st q k efs = Except.ok [])
    ∧ search_knn sq st q 0 efs = Except.ok []
    ∧ (st.nodes.isEmpty = false → st.entry_point ≠ 0 → k ≠ 0 →
        st.config.vector_dimension ≠ 0 → q.length ≠ st.config.vector_dimension →
        search_knn sq st q k efs = Except.error HErr.DimensionMismatch) := by
  refine ⟨?_, ?_, ?_⟩
  · intro he
    unfold search_knn
    rw [if_pos (Or.inl he)]
  · unfold search_knn
    split
    · rfl
    · rw [if_pos rfl]
  · intro he hep hk hd hq
    unfold search_knn
    rw [if_neg (by simp [he, hep]), if_neg hk, if_pos ⟨hd, hq⟩]

/-- C4 witness: the mismatch branch of the amended statement fires on the
concrete non-empty index stOne (dimension 1) with a 2-component query. -/
theorem knn_validation_after_shortcuts_witness :
    search_knn sq0 stOne [9, 9] 1 0 = Except.error HErr.DimensionMismatch :=
  (knn_validation_after_shortcuts sq0 stOne [9, 9] 1 0).2.2 (by decide) (by decide)
    (by decide) (by decide) (by decide)

/-- C5 counterexample: with config default 50, 10 nodes, k = 5 and an
explicitly supplied ef_search of 1, the source uses 1 as the effective
candidate-set size while the claim (spec reading, specEffectiveEf) demands
that the supplied value be raised to at least k = 5. -/
theorem supplied_ef_search_not_raised :
    effectiveEf 50 10 5 1 = 1
    ∧ specEffectiveEf 50 10 5 1 = 5
    ∧ effectiveEf 50 10 5 1 ≠ specEffectiveEf 50 10 5 1 := by
  decide

/-- C5 (amended): the effective candidate-set size of search_knn equals
max(config default, k) clamped to the node count only when no ef_search was
supplied (0); a supplied non-zero ef_search is used as-is, clamped to the
node count and never raised to k. -/
theorem effective_ef_characterization (c n k efs : Nat) :
    effectiveEf c n k 0 = min (max c k) n
    ∧ (efs ≠ 0 → effectiveEf c n k efs = min efs n) := by
  constructor
  · simp [effectiveEf]
  · intro h
    simp [effectiveEf, h]

/-- C5 witness: the supplied-ef branch of the amended statement at the
counterexample input. -/
theorem effective_ef_characterization_witness :
    effectiveEf 50 10 5 1 = min 1 10 :=
  (effective_ef_characterization 50 10 5 1).2 (by decide)

/-- C6: every successful search_knn call returns at most min(k, count())
results, in non-decreasing distance order. -/
theorem search_knn_size_bound_and_sorted (sq : ℚ → ℚ) (st : HState) (q : List ℚ)
    (k efs : Nat) (l : List SC) (h : search_knn sq st q k efs = Except.ok l) :
    l.length ≤ min k (hnswCount st) ∧ l.Sorted scLE := by
  unfold search_knn at h
  split at h
  · obtain rfl : ([] : List SC) = l := Except.ok.inj h
    exact ⟨by simp, List.sorted_nil⟩
  · split at h
    · obtain rfl : ([] : List SC) = l := Except.ok.inj h
      exact ⟨by simp, List.sorted_nil⟩
    · split at h
      · exact Except.noConfusion h
      · obtain rfl := (Except.ok.inj h).symm
        constructor
        · split
          · simp [hnswCount]
          · rename_i hnot
            simp only [not_lt] at hnot
            simpa [hnswCount] using hnot
        · split
          · exact (search_layer_with_distances_sorted sq st q _ _ 0).sublist
              (List.take_sublist _ _)
          · exact search_layer_with_distances_sorted sq st q _ _ 0

/-- C6 witness: on the 1-node index stOne a k = 3 query returns one pair,
within the size bound and trivially sorted. -/
theorem search_knn_size_bound_and_sorted_witness :
    ([⟨5, -2⟩] : List SC).length ≤ min 3 (hnswCount stOne)
    ∧ ([⟨5, -2⟩] : List SC).Sorted scLE :=
  search_knn_size_bound_and_sorted sq0 stOne [1] 3 0 [⟨5, -2⟩] (by
    norm_num [search_knn, effectiveEf, layersDownTo, hnswDescend,
      search_layer_with_distances, searchLoop, wTopDist, compute_distance,
      dot_product_distance, dotAcc, stOne, cfgDot, HNSWIndexConfig.init, findNode,
      List.lookup])

/-- C7: every pair returned by a successful search_radius call has distance
at most the threshold (the sorted k-NN result is cut by a take-while at the
threshold). -/
theorem search_radius_containment (sq : ℚ → ℚ) (st : HState) (q : List ℚ)
    (r : ℚ) (l : List SC) (h : search_radius sq st q r = Except.ok l) :
    ∀ p ∈ l, p.dist ≤ r := by
  unfold search_radius at h
  split at h
  · obtain rfl : ([] : List SC) = l := Except.ok.inj h
    simp
  · split at h
    · obtain rfl : ([] : List SC) = l := Except.ok.inj h
      simp
    · split at h
      · exact Except.noConfusion h
      · simp only [] at h
        cases hk : search_knn sq st q st.nodes.length
          (min (st.config.ef_search * 2) (max st.config.ef_search st.nodes.length)) with
        | error e => rw [hk] at h; exact Except.noConfusion h
        | ok res =>
          rw [hk] at h
          obtain rfl := (Except.ok.inj h).symm
          intro p hp
          have := List.mem_takeWhile_imp hp
          simpa using this

/-- C7 witness: the radius search on stOne with threshold 5 returns the
pair (5, -2), whose distance is within the threshold. -/
theorem search_radius_containment_witness :
    (SC.mk 5 (-2)).dist ≤ 5 :=
  search_radius_containment sq0 stOne [1] 5 [SC.mk 5 (-2)] (by
    norm_num [search_radius, search_knn, effectiveEf, layersDownTo, hnswDescend,
      search_layer_with_distances, searchLoop, wTopDist, compute_distance,
      dot_product_distance, dotAcc, stOne, cfgDot, HNSWIndexConfig.init, findNode,
      List.lookup, List.takeWhile]) (SC.mk 5 (-2)) (by simp)

/-- C8: saving a state whose nodes satisfy the data-model invariants (key
of each map entry is the node's own key, adjacency table sized top-layer+1,
unique keys) and loading the persisted root reproduces the same node list
(hence the same key set, the same per-layer adjacency as sets, and the
exact vectors), the same entry point, the same entry layer and the same
dimension. -/
theorem persistence_roundtrip (cfg : HNSWIndexConfig) (st : HState)
    (hkey : ∀ p ∈ st.nodes, p.2.obj_key = p.1)
    (hconn : ∀ p ∈ st.nodes, p.2.connections.length = p.2.layer + 1)
    (hnodup : (st.nodes.map Prod.fst).Nodup) :
    (load_from_storage cfg (save_to_storage st)).map HState.nodes = some st.nodes
    ∧ (load_from_storage cfg (save_to_storage st)).map HState.entry_point
        = some st.entry_point
    ∧ (load_from_storage cfg (save_to_storage st)).map HState.entry_point_layer
        = some st.entry_point_layer
    ∧ (load_from_storage cfg (save_to_storage st)).map (fun s => s.config.vector_dimension)
        = some st.config.vector_dimension := by
  have hn : loadNodes (save_to_storage st).recs = st.nodes := by
    unfold loadNodes save_to_storage
    simpa using loadNodes_append st.nodes [] hkey hconn (by simp) hnodup
  refine ⟨?_, ?_, ?_, ?_⟩
  · simp [load_from_storage, save_to_storage, List.getD_cons_zero, List.getD_cons_succ]
    simp [loadNodes, save_to_storage] at hn
    exact hn
  · simp [load_from_storage, save_to_storage, List.getD_cons_zero, List.getD_cons_succ]
  · simp [load_from_storage, save_to_storage, List.getD_cons_zero, List.getD_cons_succ]
  · simp [load_from_storage, save_to_storage, List.getD_cons_zero, List.getD_cons_succ]

/-- C8 witness: the round trip on the concrete 1-node index stOne. -/
theorem persistence_roundtrip_witness :
    (load_from_storage cfgDot (save_to_storage stOne)).map HState.nodes = some stOne.nodes
    ∧ (load_from_storage cfgDot (save_to_storage stOne)).map HState.entry_point
        = some stOne.entry_point
    ∧ (load_from_storage cfgDot (save_to_storage stOne)).map HState.entry_point_layer
        = some stOne.entry_point_layer
    ∧ (load_from_storage cfgDot (save_to_storage stOne)).map (fun s => s.config.vector_dimension)
        = some stOne.config.vector_dimension :=
  persistence_roundtrip cfgDot stOne (by decide) (by decide) (by decide)

/-- C9 counterexample: the default-constructed configuration carries
ef_search = 50, not 0, so the constructor's max(64, 8*M) normalisation does
not fire: a default index (M = 16) queries with candidate-set size 50
(clamped and floored by k), not max(64, 8*16) = 128. -/
theorem default_config_ef_search_is_50 :
    (normalizeConfig (HNSWIndexConfig.init DistanceMetric.Euclidean)).ef_search = 50
    ∧ (normalizeConfig (HNSWIndexConfig.init DistanceMetric.Euclidean)).M = 16
    ∧ effectiveEf (normalizeConfig (HNSWIndexConfig.init DistanceMetric.Euclidean)).ef_search 1000 1 0 = 50
    ∧ (50 : Nat) ≠ max 64 (8 * 16) := by
  decide

/-- C9 (amended): the constructor sets ef_search to max(64, 8*M) only when
the configured value is 0; the default configuration sets it to 50, so a
default index uses max(50, k) clamped to the node count at query time. -/
theorem ef_search_normalization_characterization (m : DistanceMetric)
    (c : HNSWIndexConfig) (n k : Nat) (h : c.ef_search = 0) :
    (normalizeConfig c).ef_search = max 64 (c.M * 8)
    ∧ (normalizeConfig (HNSWIndexConfig.init m)).ef_search = 50
    ∧ effectiveEf 50 n k 0 = min (max 50 k) n := by
  refine ⟨?_, by simp [normalizeConfig, HNSWIndexConfig.init], by simp [effectiveEf]⟩
  unfold normalizeConfig
  split
  · rw [if_pos (by simpa using h)]
  · rw [if_pos (by simpa using h)]

/-- C9 witness: the amended statement instantiated at a configuration with
ef_search = 0 (where the normalisation does fire). -/
theorem ef_search_normalization_witness :
    (normalizeConfig cfgZeroEf).ef_search = max 64 (cfgZeroEf.M * 8)
    ∧ (normalizeConfig (HNSWIndexConfig.init DistanceMetric.Euclidean)).ef_search = 50
    ∧ effectiveEf 50 1000 1 0 = min (max 50 1) 1000 :=
  ef_search_normalization_characterization DistanceMetric.Euclidean cfgZeroEf 1000 1 (by decide)

/-- C10: search_radius with a negative threshold returns the empty list on
every graph state, also under the negative-dot metric where indexed nodes
with distance at most the threshold may exist. -/
theorem negative_radius_returns_empty (sq : ℚ → ℚ) (st : HState) (q : List ℚ)
    (r : ℚ) (h : r < 0) : search_radius sq st q r = Except.ok [] := by
  unfold search_radius
  split
  · rfl
  · rfl

/-- C10 witness: on the non-empty dot-product index stOne the query [2]
has distance -4 to the stored node, below the threshold -1, yet the radius
search returns the empty list. -/
theorem negative_radius_returns_empty_witness :
    dot_product_distance [2] [2] ≤ -1
    ∧ search_radius sq0 stOne [2] (-1) = Except.ok [] :=
  ⟨by norm_num [dot_product_distance, dotAcc],
   negative_radius_returns_empty sq0 stOne [2] (-1) (by norm_num)⟩
